import Mathlib

/-!
Verification development for the youtube-video-downloader repository.

The repository contains three independently evolved serverless resolver
variants plus a client component:

* `src/supabase/functions/youtube-download/index.ts`, first handler
  (the "ytstream" RapidAPI variant) — embedded in namespace `YtDl.Ytstream`;
* `src/supabase/functions/youtube-download/index.ts`, second handler
  (the RapidAPI youtube-mp36 / y2mate variant) — namespace `YtDl.V2`;
* `src/unnamed/part_001` (the Piped-instances variant) — namespace `YtDl.Piped`.

JavaScript semantics is embedded shallowly:

* `string | undefined` values become `Option String`; JS truthiness of a
  string is "present and non-empty" (`undefined`, `null` and `""` are falsy);
* `number | undefined` becomes `Option Int`; `x || 0` becomes `getD 0`;
  a `NaN` produced by `parseInt` is `none`;
* `Array.prototype.sort` with a numeric comparator is modelled by a stable
  insertion sort `jsSort` (modern JS engines implement a stable sort; for the
  consistent comparators used by this code the stable result is unique);
* `String.prototype.toLowerCase`, `startsWith`, `includes` and the
  single-occurrence `replace` are implemented over `List Char` so that they
  evaluate by kernel reduction;
* each `fetch` to an upstream provider is replaced by an explicit outcome
  value (`thrown` / non-2xx / parsed payload) passed to the handler, and each
  handler becomes a total function from the request and those outcomes to the
  produced HTTP response.
-/

namespace YtDl

set_option maxRecDepth 100000

/-- Truthiness of a JS `string | undefined | null` value: `undefined` and the
empty string are falsy. -/
def jsFalsy : Option String → Bool
  | none => true
  | some s => s.isEmpty

/-- JS `a || d` for a possibly-undefined string `a` with a string default:
returns `d` when `a` is undefined or empty. -/
def jsStrOr (a : Option String) (d : String) : String :=
  match a with
  | none => d
  | some s => if s.isEmpty then d else s

/-- Numeric value of the leading decimal digits of a character list;
`none` when there is no leading digit (the `NaN` case of JS `parseInt`). -/
def parseDigits (l : List Char) : Option Nat :=
  let ds := l.takeWhile Char.isDigit
  if ds.isEmpty then none
  else some (ds.foldl (fun n c => n * 10 + (c.toNat - 48)) 0)

/-- JS `parseInt` in base 10 on the strings this code feeds it (quality
strings such as "720" and labels such as "1080p60"): an optional sign
followed by leading digits; `none` models `NaN`. -/
def jsParseInt (s : String) : Option Int :=
  match s.data with
  | '-' :: rest => (parseDigits rest).map (fun n => -(n : Int))
  | '+' :: rest => (parseDigits rest).map (fun n => (n : Int))
  | l => (parseDigits l).map (fun n => (n : Int))

/-- Character-list core of JS `String.prototype.startsWith`. -/
def charStartsWith : List Char → List Char → Bool
  | _, [] => true
  | [], _ :: _ => false
  | c :: cs, p :: ps => c == p && charStartsWith cs ps

/-- JS `s.startsWith(p)`. -/
def strStartsWith (s p : String) : Bool :=
  charStartsWith s.data p.data

/-- Character-list core of JS `String.prototype.includes`. -/
def charContains : List Char → List Char → Bool
  | [], p => p.isEmpty
  | s@(_ :: rest), p => charStartsWith s p || charContains rest p

/-- JS `s.includes(p)`. -/
def strContains (s p : String) : Bool :=
  charContains s.data p.data

/-- JS `s.toLowerCase()` (ASCII, sufficient for the quality labels used). -/
def strToLower (s : String) : String :=
  ⟨s.data.map Char.toLower⟩

/-- Character-list core of the single-occurrence JS `s.replace(p, r)`. -/
def charReplaceFirst : List Char → List Char → List Char → List Char
  | [], _, _ => []
  | s@(c :: rest), p, r =>
    if charStartsWith s p then r ++ s.drop p.length
    else c :: charReplaceFirst rest p r

/-- JS `s.replace(p, r)` (replaces the first occurrence only). -/
def strReplaceFirst (s p r : String) : String :=
  ⟨charReplaceFirst s.data p.data r.data⟩

/-- JS `Array.prototype.findIndex`: index of the first match, `-1` if none. -/
def jsFindIndex (p : α → Bool) (l : List α) : Int :=
  match l.findIdx? p with
  | some i => (i : Int)
  | none => -1

/-- Insertion step of the stable sort: `x` (originally earlier than every
element of the sorted suffix) goes before the first element it does not
compare strictly greater than. -/
def jsInsert (cmp : α → α → Int) (x : α) : List α → List α
  | [] => [x]
  | y :: ys => if cmp x y ≤ 0 then x :: y :: ys else y :: jsInsert cmp x ys

/-- Stable sort modelling JS `Array.prototype.sort(cmp)` for a numeric
comparator: element `a` precedes `b` when `cmp a b < 0`, and elements
comparing equal keep their original order. -/
def jsSort (cmp : α → α → Int) : List α → List α
  | [] => []
  | x :: xs => jsInsert cmp x (jsSort cmp xs)

/-- Permissive cross-origin headers shared by every resolver variant
(`corsHeaders` in each source file). -/
def corsHeaders : List (String × String) :=
  [("Access-Control-Allow-Origin", "*"),
   ("Access-Control-Allow-Headers",
    "authorization, x-client-info, apikey, content-type, x-supabase-client-platform, x-supabase-client-platform-version, x-supabase-client-runtime, x-supabase-client-runtime-version")]

/-- Body of a response as serialised by `JSON.stringify`; a field holding
`undefined` is omitted from the JSON, which is what `none` denotes. -/
inductive RespBody where
  | empty
  | err (msg : String)
  | errFallback (msg fallbackUrl : String)
  | urlFile (url filename : String)
  | urlOnly (url : String)
  | audio (url : String) (mimeType : Option String)
  | video (url : String) (quality : Option String) (mimeType : Option String)
      (videoOnly : Bool) (audioUrl : Option String)
deriving DecidableEq

/-- Observable outcome of one handler invocation: the HTTP response together
with whether the request body was read and how many upstream provider
requests were issued. -/
structure Resp where
  status : Nat
  headers : List (String × String)
  body : RespBody
  bodyRead : Bool
  providersContacted : Nat
deriving DecidableEq

/-- Response built with `{ ...corsHeaders, 'Content-Type': 'application/json' }`,
the shape of every non-OPTIONS response in the source. -/
def jsonResp (status : Nat) (body : RespBody) (bodyRead : Bool)
    (prov : Nat) : Resp :=
  ⟨status, corsHeaders ++ [("Content-Type", "application/json")],
   body, bodyRead, prov⟩

/-- Response to an OPTIONS preflight: `new Response(null, { headers: corsHeaders })`
(status defaults to 200, empty body, request body unread, no provider call). -/
def optionsResp : Resp := ⟨200, corsHeaders, .empty, false, 0⟩

/-- Parsed JSON request body `{ videoId, quality }`; a missing field is `none`. -/
structure ReqBody where
  videoId : Option String
  quality : Option String
deriving DecidableEq

/-- Incoming request: method plus the result of `req.json()`
(`none` when parsing throws). -/
structure Request where
  method : String
  body : Option ReqBody
deriving DecidableEq

namespace Ytstream

/-- Stream descriptor returned by the ytstream RapidAPI endpoint
(`interface RapidFormat` in the source; `contentLength` is unused by the
handler and omitted). -/
structure RapidFormat where
  url : String
  qualityLabel : Option String
  quality : Option String
  mimeType : Option String
  hasAudio : Option Bool
  bitrate : Option Int
  height : Option Int
deriving DecidableEq

/-- JS `f.mimeType?.startsWith('audio/')` as a boolean. -/
def isAudioMime (f : RapidFormat) : Bool :=
  (f.mimeType.map (fun m => strStartsWith m "audio/")).getD false

/-- JS `f.mimeType?.startsWith('video/')` as a boolean. -/
def isVideoMime (f : RapidFormat) : Bool :=
  (f.mimeType.map (fun m => strStartsWith m "video/")).getD false

/-- Audio-stream filter of the audio branch:
`f.mimeType?.startsWith('audio/') || (f.hasAudio && !f.mimeType?.startsWith('video/'))`. -/
def isAudioStream (f : RapidFormat) : Bool :=
  isAudioMime f || (f.hasAudio.getD false && !isVideoMime f)

/-- Comparator `(a, b) => (b.bitrate || 0) - (a.bitrate || 0)` (bitrate
descending). -/
def bitrateDesc (a b : RapidFormat) : Int :=
  b.bitrate.getD 0 - a.bitrate.getD 0

/-- Effective height used by `closestTo`:
`a.height || parseInt(a.qualityLabel || '0')`; `none` models `NaN`. -/
def rfHeight (f : RapidFormat) : Option Int :=
  match f.height with
  | some h => if h == 0 then jsParseInt (jsStrOr f.qualityLabel "0") else some h
  | none => jsParseInt (jsStrOr f.qualityLabel "0")

/-- Sort key of `closestTo`: `Math.abs(h - target)`, `none` when either the
height or the target is `NaN`. -/
def diffKey (target : Option Int) (f : RapidFormat) : Option Int :=
  match target, rfHeight f with
  | some t, some h => some ((h - t).natAbs : Int)
  | _, _ => none

/-- JS subtraction of the two diffs inside the comparator; a `NaN` operand
makes the comparator result `NaN`, which the sort treats as 0 (equal). -/
def nanSub : Option Int → Option Int → Int
  | some a, some b => a - b
  | _, _ => 0

/-- The `closestTo` helper of the ytstream handler: sort by absolute distance
of the declared height from the target and take the first element
(`null`, i.e. `none`, on an empty list). -/
def closestTo (formats : List RapidFormat) (target : Option Int) :
    Option RapidFormat :=
  (jsSort (fun a b => nanSub (diffKey target a) (diffKey target b))
    formats).head?

/-- Audio branch of the ytstream handler: best audio-only stream by bitrate,
else best combined (`video/` mime with `hasAudio !== false`) stream by
bitrate (`audioStreams[0] || combined[0]`). -/
def audioBest (allFormats : List RapidFormat) : Option RapidFormat :=
  let audioStreams := jsSort bitrateDesc (allFormats.filter isAudioStream)
  let combined := jsSort bitrateDesc
    (allFormats.filter (fun f => isVideoMime f && !(f.hasAudio == some false)))
  audioStreams.head? <|> combined.head?

/-- Combined pool of the video branch: `videoFormats.filter(f => f.hasAudio !== false)`. -/
def combinedPool (videoFormats : List RapidFormat) : List RapidFormat :=
  videoFormats.filter (fun f => !(f.hasAudio == some false))

/-- Video-only pool of the video branch: `videoFormats.filter(f => f.hasAudio === false)`. -/
def videoOnlyPool (videoFormats : List RapidFormat) : List RapidFormat :=
  videoFormats.filter (fun f => f.hasAudio == some false)

/-- Video branch selection: `closestTo(combined)` first, else
`closestTo(videoOnly)` with the `isVideoOnly` flag set exactly when the
fallback produced the pick. -/
def pickVideo (videoFormats : List RapidFormat) (target : Option Int) :
    Option RapidFormat × Bool :=
  match closestTo (combinedPool videoFormats) target with
  | some p => (some p, false)
  | none =>
    match closestTo (videoOnlyPool videoFormats) target with
    | some p => (some p, true)
    | none => (none, false)

/-- Outcome of the single upstream `fetch` of the ytstream handler: the call
threw (timeout included), returned non-2xx, or returned a payload whose
`formats` / `adaptiveFormats` arrays default to `[]` when absent. -/
inductive Upstream where
  | thrown
  | notOk (status : Nat)
  | ok (formats adaptiveFormats : List RapidFormat)
deriving DecidableEq

/-- The ytstream request handler (first `serve` callback of
`src/supabase/functions/youtube-download/index.ts`), as a total function of
the RapidAPI key, the upstream outcome and the request. -/
def handler (rapidApiKey : Option String) (upstream : Upstream)
    (req : Request) : Resp :=
  if req.method == "OPTIONS" then optionsResp
  else
    match req.body with
    | none => jsonResp 500 (.err "Internal server error") true 0
    | some b =>
      if jsFalsy b.videoId then
        jsonResp 400 (.err "videoId is required") true 0
      else
        match rapidApiKey with
        | none => jsonResp 503
            (.err "Service not configured. Please set up a RapidAPI key.")
            true 0
        | some _ =>
          match upstream with
          | .thrown => jsonResp 500 (.err "Internal server error") true 1
          | .notOk s => jsonResp 502
              (.err (if s == 429 then
                "Too many requests — please wait a moment and try again."
              else
                "Download service error (" ++ toString s ++
                  "). Please try again.")) true 1
          | .ok fmts afmts =>
            let allFormats := fmts ++ afmts
            if allFormats.isEmpty then
              jsonResp 404 (.err "No streams found for this video.") true 1
            else if b.quality == some "audio" then
              match audioBest allFormats with
              | none => jsonResp 404 (.err "No audio stream found.") true 1
              | some best =>
                if best.url.isEmpty then
                  jsonResp 404 (.err "No audio stream found.") true 1
                else
                  jsonResp 200 (.audio best.url best.mimeType) true 1
            else
              let qstr := b.quality.getD "undefined"
              let videoFormats := allFormats.filter isVideoMime
              if videoFormats.isEmpty then
                jsonResp 404 (.err "No video streams found.") true 1
              else
                match pickVideo videoFormats (jsParseInt qstr) with
                | (none, _) =>
                  jsonResp 404 (.err "No suitable video stream found.") true 1
                | (some p, vo) =>
                  if p.url.isEmpty then
                    jsonResp 404 (.err "No suitable video stream found.") true 1
                  else
                    jsonResp 200
                      (.video p.url
                        (some (jsStrOr p.qualityLabel
                          (jsStrOr p.quality (qstr ++ "p"))))
                        p.mimeType vo none) true 1

end Ytstream

namespace Piped

/-- The fixed provider priority list of `src/unnamed/part_001`
(`PIPED_INSTANCES`). -/
def PIPED_INSTANCES : List String :=
  ["https://pipedapi.kavin.rocks",
   "https://piped-api.garudalinux.org",
   "https://api.piped.projectsegfau.lt",
   "https://pipedapi.tokhmi.xyz"]

/-- Audio stream descriptor of the Piped API (`interface PipedAudioStream`);
`mimeType` is accessed with `?.` by the handler, hence optional here. -/
structure PipedAudioStream where
  url : String
  quality : String
  mimeType : Option String
  bitrate : Int
deriving DecidableEq

/-- Video stream descriptor of the Piped API (`interface PipedVideoStream`;
the unused optional `codec` field is omitted); `quality` and `mimeType` are
accessed with `?.` by the handler, hence optional here. -/
structure PipedVideoStream where
  url : String
  quality : Option String
  mimeType : Option String
  videoOnly : Bool
deriving DecidableEq

/-- Payload of one Piped `/streams/{videoId}` response; a field is `none`
when the key is absent from the JSON (an empty array is a present field). -/
structure PipedResponse where
  audioStreams : Option (List PipedAudioStream)
  videoStreams : Option (List PipedVideoStream)
deriving DecidableEq

/-- Outcome of the `fetch` against one Piped instance: the call threw
(timeout included) or returned non-2xx (`failed`), or 2xx with a parsed
payload. -/
inductive ProviderOutcome where
  | failed
  | ok (data : PipedResponse)
deriving DecidableEq

/-- JS truthiness of `data.audioStreams || data.videoStreams`: at least one
of the two keys is present (an empty array is truthy). -/
def dataUsable (d : PipedResponse) : Bool :=
  d.audioStreams.isSome || d.videoStreams.isSome

/-- Whether an instance's outcome lets `fetchFromPiped` return its payload. -/
def isUsableOutcome : ProviderOutcome → Bool
  | .failed => false
  | .ok d => dataUsable d

/-- The `fetchFromPiped` fallback loop, as a function of the per-instance
outcomes (listed in `PIPED_INSTANCES` order): returns the first usable
payload together with the number of instances contacted. -/
def fetchFromPiped : List ProviderOutcome → Option PipedResponse × Nat
  | [] => (none, 0)
  | .failed :: rest =>
    let r := fetchFromPiped rest
    (r.1, r.2 + 1)
  | .ok d :: rest =>
    if dataUsable d then (some d, 1)
    else
      let r := fetchFromPiped rest
      (r.1, r.2 + 1)

/-- The quality ladder `qualityOrder` of the handler. -/
def qualityOrder : List String :=
  ["2160p", "4K", "1440p", "1080p", "720p", "480p", "360p", "240p", "144p"]

/-- Target label: `quality === '2160' ? '4K' : `${quality}p``. -/
def targetQualityOf (quality : String) : String :=
  if quality == "2160" then "4K" else quality ++ "p"

/-- Pattern matched against a stream's label for ladder position:
`q.toLowerCase().replace('4k', '2160')`. -/
def qualityPattern (q : String) : String :=
  strReplaceFirst (strToLower q) "4k" "2160"

/-- Ladder position of one stream:
`qualityOrder.findIndex(q => s.quality?.toLowerCase().startsWith(pattern q))`
(`-1` when the label matches nothing or is absent). -/
def streamIdx (s : PipedVideoStream) : Int :=
  jsFindIndex (fun q =>
    match s.quality with
    | some sq => strStartsWith (strToLower sq) (qualityPattern q)
    | none => false) qualityOrder

/-- Ladder position of the requested quality:
`qualityOrder.findIndex(q => q.toLowerCase() === targetQuality.toLowerCase())`. -/
def targetIdxOf (targetQuality : String) : Int :=
  jsFindIndex (fun q => strToLower q == strToLower targetQuality) qualityOrder

/-- The `pickBestStream` helper: exact label match first, otherwise sort by
ladder position (best quality first) and prefer the first stream at or below
the target, falling back to the overall first. -/
def pickBestStream (targetQuality : String)
    (streams : List PipedVideoStream) : Option PipedVideoStream :=
  match streams.find? (fun s =>
    match s.quality with
    | some sq => strToLower sq == strToLower targetQuality
    | none => false) with
  | some exact => some exact
  | none =>
    let sorted := jsSort (fun a b => streamIdx a - streamIdx b) streams
    let atOrBelow := sorted.filter
      (fun s => streamIdx s ≥ targetIdxOf targetQuality)
    atOrBelow.head? <|> sorted.head?

/-- JS `m?.includes('mp4')` for an optional mime type. -/
def mp4Mime (m : Option String) : Bool :=
  (m.map (fun s => strContains s "mp4")).getD false

/-- Combined pool of the video branch:
`videoStreams.filter(s => !s.videoOnly && s.mimeType?.includes('mp4'))`. -/
def combinedStreamsOf (videoStreams : List PipedVideoStream) :
    List PipedVideoStream :=
  videoStreams.filter (fun s => !s.videoOnly && mp4Mime s.mimeType)

/-- Video-only pool of the video branch:
`videoStreams.filter(s => s.videoOnly && s.mimeType?.includes('mp4'))`. -/
def videoOnlyStreamsOf (videoStreams : List PipedVideoStream) :
    List PipedVideoStream :=
  videoStreams.filter (fun s => s.videoOnly && mp4Mime s.mimeType)

/-- Video selection of the Piped handler: pick from the combined pool, then
switch to the video-only pick when there was no combined pick, or when the
target lies strictly above 720p on the ladder and a video-only stream exists. -/
def selectVideo (quality : String) (videoStreams : List PipedVideoStream) :
    Option PipedVideoStream :=
  let targetQuality := targetQualityOf quality
  let combinedStreams := combinedStreamsOf videoStreams
  let videoOnlyStreams := videoOnlyStreamsOf videoStreams
  let picked := pickBestStream targetQuality combinedStreams
  if picked.isNone ||
      (targetIdxOf targetQuality < jsFindIndex (fun q => q == "720p") qualityOrder
        && !videoOnlyStreams.isEmpty) then
    match pickBestStream targetQuality videoOnlyStreams with
    | some v => some v
    | none => picked
  else picked

/-- JS `s.mimeType?.includes('mp4') || s.mimeType?.includes('aac')`. -/
def isMp4Aac (s : PipedAudioStream) : Bool :=
  (s.mimeType.map (fun m => strContains m "mp4")).getD false ||
    (s.mimeType.map (fun m => strContains m "aac")).getD false

/-- Comparator `(a, b) => b.bitrate - a.bitrate` (bitrate descending). -/
def audioBitrateDesc (a b : PipedAudioStream) : Int :=
  b.bitrate - a.bitrate

/-- Audio selection of the Piped handler: sort by bitrate descending, prefer
the first mp4/aac stream, else the first stream overall. -/
def selectAudio (audioStreams : List PipedAudioStream) :
    Option PipedAudioStream :=
  let sorted := jsSort audioBitrateDesc audioStreams
  sorted.find? isMp4Aac <|> sorted.head?

/-- The Piped request handler (`serve` callback of `src/unnamed/part_001`),
as a total function of the per-instance outcomes and the request. -/
def handler (outcomes : List ProviderOutcome) (req : Request) : Resp :=
  if req.method == "OPTIONS" then optionsResp
  else
    match req.body with
    | none => jsonResp 500 (.err "Internal server error") true 0
    | some b =>
      if jsFalsy b.videoId then
        jsonResp 400 (.err "videoId is required") true 0
      else
        match fetchFromPiped outcomes with
        | (none, n) => jsonResp 502
            (.err "Could not retrieve video streams. The video may be unavailable.")
            true n
        | (some data, n) =>
          if b.quality == some "audio" then
            match selectAudio (data.audioStreams.getD []) with
            | none =>
              jsonResp 404 (.err "No audio stream found for this video.") true n
            | some best =>
              if best.url.isEmpty then
                jsonResp 404 (.err "No audio stream found for this video.")
                  true n
              else
                jsonResp 200 (.audio best.url best.mimeType) true n
          else
            let qstr := b.quality.getD "undefined"
            match selectVideo qstr (data.videoStreams.getD []) with
            | none =>
              jsonResp 404
                (.err "No video stream found for the requested quality.")
                true n
            | some picked =>
              if picked.url.isEmpty then
                jsonResp 404
                  (.err "No video stream found for the requested quality.")
                  true n
              else
                let audioForVideo :=
                  (jsSort audioBitrateDesc (data.audioStreams.getD [])).head?
                jsonResp 200
                  (.video picked.url picked.quality picked.mimeType
                    picked.videoOnly
                    (if picked.videoOnly then audioForVideo.map (fun a => a.url)
                     else none)) true n

end Piped

namespace V2

/-- Outcome of one upstream `fetch` of the second handler variant: the call
threw, returned non-2xx, or returned a parsed payload. -/
inductive Fetch (α : Type) where
  | thrown
  | notOk (status : Nat)
  | ok (data : α)
deriving DecidableEq

/-- Video format entry of the `youtube-video-download-info` payload (only
the two fields the handler reads). -/
structure V2Format where
  qualityLabel : Option String
  url : Option String
deriving DecidableEq

/-- Payload of the RapidAPI stage; `link` is set by the audio endpoint,
`formats` by the video endpoint (absent keys are `none`). -/
structure RapidData where
  link : Option String
  formats : Option (List V2Format)
deriving DecidableEq

/-- One entry of a y2mate link map; `k` is `none` when the key is absent or
holds `undefined`. -/
structure LinkObj where
  k : Option String
deriving DecidableEq

/-- The `links` object of a y2mate analyze payload: `mp3` and `mp4` link
maps, each an ordered key/value object. -/
structure Y2Links where
  mp3 : Option (List (String × LinkObj))
  mp4 : Option (List (String × LinkObj))
deriving DecidableEq

/-- Parsed y2mate `analyzeV2` payload (fields the handler reads). -/
structure Y2Analyze where
  status : String
  links : Option Y2Links
  vid : String
deriving DecidableEq

/-- Parsed y2mate `convertV2` payload (fields the handler reads). -/
structure Y2Convert where
  status : String
  dlink : Option String
deriving DecidableEq

/-- External inputs of the second handler variant: the key and the outcome
of each of its three possible upstream calls. -/
structure Env where
  rapidApiKey : Option String
  rapid : Fetch RapidData
  y2analyze : Fetch Y2Analyze
  y2convert : Fetch Y2Convert
deriving DecidableEq

/-- `qualityMap[quality] || ['720p']`: preferred label list per quality. -/
def qualityMapLookup (q : Option String) : List String :=
  match q with
  | some "2160" => ["2160p", "4K", "uhd"]
  | some "1440" => ["1440p", "2K", "qhd"]
  | some "1080" => ["1080p", "fhd", "1080"]
  | some "720" => ["720p", "hd", "720"]
  | some "480" => ["480p", "sd", "480"]
  | some "360" => ["360p", "360"]
  | some "240" => ["240p", "240"]
  | some "144" => ["144p", "144"]
  | _ => ["720p"]

/-- Label-preference loop over `data.formats`: for each preferred label in
order, take the first format whose `qualityLabel` contains it
(case-insensitively) and has a truthy `url`. -/
def findLabelUrl (formats : List V2Format) : List String → Option String
  | [] => none
  | label :: rest =>
    match formats.find? (fun f =>
      match f.qualityLabel with
      | some ql => strContains (strToLower ql) (strToLower label)
      | none => false) with
    | some f =>
      match f.url with
      | some u => if u.isEmpty then findLabelUrl formats rest else some u
      | none => findLabelUrl formats rest
    | none => findLabelUrl formats rest

/-- Video URL pick of the RapidAPI stage: label preference first, then
`data.formats[0].url` when the list is non-empty, kept only when truthy. -/
def videoUrlOf (formats : List V2Format) (quality : Option String) :
    Option String :=
  match findLabelUrl formats (qualityMapLookup quality) with
  | some u => some u
  | none =>
    match formats.head? with
    | some f0 =>
      match f0.url with
      | some u => if u.isEmpty then none else some u
      | none => none
    | none => none

/-- Terminal 422 fallback: `{error: 'direct_download_unavailable', fallbackUrl}`. -/
def fallbackResp (b : ReqBody) (prov : Nat) : Resp :=
  jsonResp 422
    (.errFallback "direct_download_unavailable"
      ("https://www.youtube.com/watch?v=" ++ b.videoId.getD ""))
    true prov

/-- The y2mate stage of the second handler variant (analyze, then convert),
entered with `prov` upstream calls already made. -/
def y2Stage (env : Env) (b : ReqBody) (isAudio : Bool) (prov : Nat) : Resp :=
  match env.y2analyze with
  | .thrown => jsonResp 500 (.err "Internal server error") true (prov + 1)
  | .notOk _ => fallbackResp b (prov + 1)
  | .ok yd =>
    if yd.status == "ok" then
      match yd.links with
      | some links =>
        match (if isAudio then links.mp3 else links.mp4) with
        | some lm =>
          let qualityKey := if isAudio then "128" else b.quality.getD "undefined"
          match (lm.find? (fun e => e.1 == qualityKey)).map (fun e => e.2)
              <|> lm.head?.map (fun e => e.2) with
          | some tl =>
            match tl.k with
            | some k =>
              if k.isEmpty then fallbackResp b (prov + 1)
              else
                match env.y2convert with
                | .thrown =>
                  jsonResp 500 (.err "Internal server error") true (prov + 2)
                | .notOk _ => fallbackResp b (prov + 2)
                | .ok cd =>
                  if cd.status == "ok" then
                    match cd.dlink with
                    | some dl =>
                      if dl.isEmpty then fallbackResp b (prov + 2)
                      else jsonResp 200 (.urlOnly dl) true (prov + 2)
                    | none => fallbackResp b (prov + 2)
                  else fallbackResp b (prov + 2)
            | none => fallbackResp b (prov + 1)
          | none => fallbackResp b (prov + 1)
        | none => fallbackResp b (prov + 1)
      | none => fallbackResp b (prov + 1)
    else fallbackResp b (prov + 1)

/-- The second request handler of
`src/supabase/functions/youtube-download/index.ts` (RapidAPI
youtube-mp36 / youtube-video-download-info, then y2mate), as a total
function of its environment and the request. -/
def handler (env : Env) (req : Request) : Resp :=
  if req.method == "OPTIONS" then optionsResp
  else
    match req.body with
    | none => jsonResp 500 (.err "Internal server error") true 0
    | some b =>
      if jsFalsy b.videoId then
        jsonResp 400 (.err "videoId is required") true 0
      else
        let isAudio := b.quality == some "audio"
        match env.rapidApiKey with
        | some _ =>
          match env.rapid with
          | .thrown => jsonResp 500 (.err "Internal server error") true 1
          | .notOk _ => y2Stage env b isAudio 1
          | .ok data =>
            if isAudio then
              match data.link with
              | some link =>
                if link.isEmpty then y2Stage env b isAudio 1
                else jsonResp 200 (.urlFile link "audio.mp3") true 1
              | none => y2Stage env b isAudio 1
            else
              match data.formats with
              | some formats =>
                match videoUrlOf formats b.quality with
                | some u => jsonResp 200 (.urlFile u "video.mp4") true 1
                | none => y2Stage env b isAudio 1
              | none => y2Stage env b isAudio 1
        | none => y2Stage env b isAudio 0

end V2

/-! Concrete stream descriptors used in the example and counterexample
theorems below. -/

/-- Combined (video+audio) 720p mp4 Piped stream. -/
def cxC720 : Piped.PipedVideoStream := ⟨"u1", some "720p", some "video/mp4", false⟩

/-- Video-only 1080p mp4 Piped stream. -/
def cxV1080 : Piped.PipedVideoStream := ⟨"u2", some "1080p", some "video/mp4", true⟩

/-- Combined 720p mp4 Piped stream of the nearest-match counterexample. -/
def cxS720 : Piped.PipedVideoStream := ⟨"a", some "720p", some "video/mp4", false⟩

/-- Combined 144p mp4 Piped stream of the nearest-match counterexample. -/
def cxS144 : Piped.PipedVideoStream := ⟨"b", some "144p", some "video/mp4", false⟩

/-- 144p mp4 Piped stream for the positive selection examples. -/
def cxP144 : Piped.PipedVideoStream := ⟨"p1", some "144p", some "video/mp4", false⟩

/-- 360p mp4 Piped stream for the positive selection examples. -/
def cxP360 : Piped.PipedVideoStream := ⟨"p2", some "360p", some "video/mp4", false⟩

/-- 720p mp4 Piped stream for the positive selection examples. -/
def cxP720 : Piped.PipedVideoStream := ⟨"p3", some "720p", some "video/mp4", false⟩

/-- Piped audio stream, webm at bitrate 160. -/
def cxAWebm : Piped.PipedAudioStream := ⟨"ua", "m", some "audio/webm", 160⟩

/-- Piped audio stream, mp4 at bitrate 128. -/
def cxAMp4 : Piped.PipedAudioStream := ⟨"ub", "m", some "audio/mp4", 128⟩

/-- Combined ytstream descriptor of declared height 144. -/
def cxE144 : Ytstream.RapidFormat :=
  ⟨"e1", some "144p", none, some "video/mp4", some true, none, some 144⟩

/-- Combined ytstream descriptor of declared height 360. -/
def cxE360 : Ytstream.RapidFormat :=
  ⟨"e2", some "360p", none, some "video/mp4", some true, none, some 360⟩

/-- Combined ytstream descriptor of declared height 720. -/
def cxE720 : Ytstream.RapidFormat :=
  ⟨"e3", some "720p", none, some "video/mp4", some true, none, some 720⟩

/-- Explicitly video-only ytstream descriptor (`hasAudio: false`) at 720p. -/
def cxFVO : Ytstream.RapidFormat :=
  ⟨"u", some "720p", none, some "video/mp4", some false, none, some 720⟩

/-- Ytstream descriptor whose `hasAudio` field is absent, at 720p. -/
def cxFU : Ytstream.RapidFormat :=
  ⟨"u1", some "720p", none, some "video/mp4", none, none, some 720⟩

/-- Explicitly combined ytstream descriptor (`hasAudio: true`) at 360p. -/
def cxFC : Ytstream.RapidFormat :=
  ⟨"u2", some "360p", none, some "video/mp4", some true, none, some 360⟩

/-- Request used to exercise the handlers at a concrete input. -/
def cxReq720 : Request := ⟨"POST", some ⟨some "abc", some "720"⟩⟩

/-- Audio-only ytstream descriptor at bitrate 128. -/
def cxAfmt : Ytstream.RapidFormat :=
  ⟨"au", none, none, some "audio/mp4", some true, some 128, none⟩

section SortLemmas

theorem mem_jsInsert (cmp : α → α → Int) (x : α) (l : List α) (a : α) :
    a ∈ jsInsert cmp x l ↔ a = x ∨ a ∈ l := by
  induction l with
  | nil => simp [jsInsert]
  | cons y ys ih =>
    simp only [jsInsert]
    split
    · simp [List.mem_cons]
    · simp only [List.mem_cons, ih]
      tauto

theorem mem_jsSort (cmp : α → α → Int) (l : List α) (a : α) :
    a ∈ jsSort cmp l ↔ a ∈ l := by
  induction l with
  | nil => simp [jsSort]
  | cons x xs ih => simp [jsSort, mem_jsInsert, ih]

theorem jsInsert_ne_nil (cmp : α → α → Int) (x : α) (l : List α) :
    jsInsert cmp x l ≠ [] := by
  cases l with
  | nil => simp [jsInsert]
  | cons y ys =>
    simp only [jsInsert]
    split <;> simp

theorem jsSort_ne_nil (cmp : α → α → Int) (l : List α) (h : l ≠ []) :
    jsSort cmp l ≠ [] := by
  cases l with
  | nil => exact absurd rfl h
  | cons x xs => simpa [jsSort] using jsInsert_ne_nil cmp x (jsSort cmp xs)

theorem pairwise_jsInsert_key (key : α → Int) (x : α) (l : List α)
    (h : l.Pairwise (fun a b => key a ≤ key b)) :
    (jsInsert (fun a b => key a - key b) x l).Pairwise
      (fun a b => key a ≤ key b) := by
  induction l with
  | nil => simp [jsInsert]
  | cons y ys ih =>
    rcases List.pairwise_cons.mp h with ⟨hy, hys⟩
    simp only [jsInsert]
    split
    · rename_i hc
      have hxy : key x ≤ key y := by omega
      refine List.pairwise_cons.mpr ⟨?_, h⟩
      intro b hb
      rcases List.mem_cons.mp hb with rfl | hb
      · exact hxy
      · exact le_trans hxy (hy b hb)
    · rename_i hc
      have hyx : key y ≤ key x := by omega
      refine List.pairwise_cons.mpr ⟨?_, ih hys⟩
      intro b hb
      rcases (mem_jsInsert _ x ys b).mp hb with rfl | hb
      · exact hyx
      · exact hy b hb

theorem pairwise_jsSort_key (key : α → Int) (l : List α) :
    (jsSort (fun a b => key a - key b) l).Pairwise
      (fun a b => key a ≤ key b) := by
  induction l with
  | nil => simp [jsSort]
  | cons x xs ih => exact pairwise_jsInsert_key key x _ ih

theorem head_mem_of_head?_eq_some {l : List α} {a : α}
    (h : l.head? = some a) : a ∈ l := by
  cases l with
  | nil => simp at h
  | cons x xs =>
    simp only [List.head?_cons, Option.some.injEq] at h
    simp [h]

/-- Head of a key-sorted list minimises the key over the input list. -/
theorem head_min_jsSort (key : α → Int) (l : List α) (h : l ≠ []) :
    ∃ x, (jsSort (fun a b => key a - key b) l).head? = some x ∧ x ∈ l ∧
      ∀ y ∈ l, key x ≤ key y := by
  cases hs : jsSort (fun a b => key a - key b) l with
  | nil => exact absurd hs (jsSort_ne_nil _ l h)
  | cons x xs =>
    refine ⟨x, rfl, ?_, ?_⟩
    · exact (mem_jsSort _ l x).mp (hs ▸ List.mem_cons_self x xs)
    · intro y hy
      have hy' : y ∈ x :: xs := hs ▸ (mem_jsSort _ l y).mpr hy
      rcases List.mem_cons.mp hy' with rfl | hy'
      · exact le_refl _
      · have hp := pairwise_jsSort_key key l
        rw [hs] at hp
        exact (List.pairwise_cons.mp hp).1 y hy'

/-- The first element satisfying `p` in a key-sorted list minimises the key
among all elements satisfying `p`. -/
theorem find?_min_key (key : α → Int) (p : α → Bool) (l : List α)
    (hp : l.Pairwise (fun a b => key a ≤ key b)) (x : α)
    (hx : l.find? p = some x) :
    ∀ y ∈ l, p y = true → key x ≤ key y := by
  induction l with
  | nil => simp at hx
  | cons a as ih =>
    rcases List.pairwise_cons.mp hp with ⟨ha, has⟩
    by_cases hpa : p a = true
    · rw [List.find?_cons_of_pos _ hpa] at hx
      cases hx
      intro y hy _
      rcases List.mem_cons.mp hy with rfl | hy
      · exact le_refl _
      · exact ha y hy
    · have hpa' : ¬ p a := by simpa using hpa
      rw [List.find?_cons_of_neg _ hpa'] at hx
      intro y hy hpy
      rcases List.mem_cons.mp hy with rfl | hy
      · exact absurd hpy hpa
      · exact ih has hx y hy hpy

theorem jsInsert_congr (cmp cmp' : α → α → Int) (x : α) (l : List α)
    (h : ∀ a ∈ x :: l, ∀ b ∈ x :: l, cmp a b = cmp' a b) :
    jsInsert cmp x l = jsInsert cmp' x l := by
  induction l with
  | nil => rfl
  | cons y ys ih =>
    simp only [jsInsert]
    rw [h x (by simp) y (by simp)]
    split
    · rfl
    · rw [ih]
      intro a ha b hb
      exact h a (by rcases List.mem_cons.mp ha with rfl | ha <;> simp [ha])
        b (by rcases List.mem_cons.mp hb with rfl | hb <;> simp [hb])

theorem jsSort_congr (cmp cmp' : α → α → Int) (l : List α)
    (h : ∀ a ∈ l, ∀ b ∈ l, cmp a b = cmp' a b) :
    jsSort cmp l = jsSort cmp' l := by
  induction l with
  | nil => rfl
  | cons x xs ih =>
    simp only [jsSort]
    rw [ih (fun a ha b hb => h a (by simp [ha]) b (by simp [hb]))]
    refine jsInsert_congr cmp cmp' x (jsSort cmp' xs) ?_
    intro a ha b hb
    have ha' : a ∈ x :: xs := by
      rcases List.mem_cons.mp ha with rfl | ha
      · simp
      · simp [(mem_jsSort cmp' xs a).mp ha]
    have hb' : b ∈ x :: xs := by
      rcases List.mem_cons.mp hb with rfl | hb
      · simp
      · simp [(mem_jsSort cmp' xs b).mp hb]
    exact h a ha' b hb'

end SortLemmas

section SelectionLemmas

theorem head_max_key (key : α → Int) (cmp : α → α → Int)
    (hcmp : ∀ a b, cmp a b = key a - key b) (l : List α) (h : l ≠ []) :
    ∃ x, (jsSort cmp l).head? = some x ∧ x ∈ l ∧ ∀ y ∈ l, key x ≤ key y := by
  have hs : jsSort cmp l = jsSort (fun a b => key a - key b) l :=
    jsSort_congr _ _ l (fun a _ b _ => hcmp a b)
  rw [hs]
  exact head_min_jsSort key l h

namespace Ytstream

theorem closestTo_mem {fmts : List RapidFormat} {t : Option Int}
    {p : RapidFormat} (h : closestTo fmts t = some p) : p ∈ fmts :=
  (mem_jsSort _ fmts p).mp (head_mem_of_head?_eq_some h)

theorem closestTo_isSome (fmts : List RapidFormat) (t : Option Int)
    (h : fmts ≠ []) : (closestTo fmts t).isSome = true := by
  unfold closestTo
  cases hs : jsSort (fun a b => nanSub (diffKey t a) (diffKey t b)) fmts with
  | nil => exact absurd hs (jsSort_ne_nil _ fmts h)
  | cons x xs => simp

theorem closestTo_none_iff (fmts : List RapidFormat) (t : Option Int) :
    closestTo fmts t = none ↔ fmts = [] := by
  constructor
  · intro h
    by_contra hne
    have := closestTo_isSome fmts t hne
    rw [h] at this
    simp at this
  · rintro rfl
    rfl

/-- With a numeric target and declared heights everywhere, `closestTo`
returns a member of the list minimising the absolute height distance. -/
theorem closestTo_min (fmts : List RapidFormat) (t : Int) (hne : fmts ≠ [])
    (hh : ∀ f ∈ fmts, (rfHeight f).isSome = true) :
    ∃ p, closestTo fmts (some t) = some p ∧ p ∈ fmts ∧
      ∀ g ∈ fmts, ∀ hp hg : Int, rfHeight p = some hp →
        rfHeight g = some hg → (hp - t).natAbs ≤ (hg - t).natAbs := by
  classical
  have hdk : ∀ f ∈ fmts, diffKey (some t) f =
      some ((((rfHeight f).getD 0) - t).natAbs : Int) := by
    intro f hf
    rcases Option.isSome_iff_exists.mp (hh f hf) with ⟨h1, hh1⟩
    simp [diffKey, hh1]
  have hcongr : jsSort (fun a b => nanSub (diffKey (some t) a) (diffKey (some t) b)) fmts
      = jsSort (fun a b =>
          ((diffKey (some t) a).getD 0) - ((diffKey (some t) b).getD 0)) fmts := by
    apply jsSort_congr
    intro a ha b hb
    rw [hdk a ha, hdk b hb]
    rfl
  rcases head_min_jsSort (fun f => (diffKey (some t) f).getD 0) fmts hne with
    ⟨p, hhead, hmem, hmin⟩
  refine ⟨p, ?_, hmem, ?_⟩
  · unfold closestTo
    rw [hcongr]
    exact hhead
  · intro g hg hp hg2 hhp hhg
    have h1 := hmin g hg
    simp only [hdk p hmem, hdk g hg, hhp, hhg, Option.getD_some] at h1
    exact_mod_cast h1

/-- A mime type starting with "audio/" does not start with "video/". -/
theorem not_video_of_audio_prefix (m : String)
    (h : strStartsWith m "audio/" = true) :
    strStartsWith m "video/" = false := by
  have ha : "audio/".data = ['a', 'u', 'd', 'i', 'o', '/'] := rfl
  have hv : "video/".data = ['v', 'i', 'd', 'e', 'o', '/'] := rfl
  unfold strStartsWith at h ⊢
  rw [ha] at h
  rw [hv]
  cases hm : m.data with
  | nil => rw [hm] at h; simp [charStartsWith] at h
  | cons c cs =>
    rw [hm] at h
    simp only [charStartsWith, Bool.and_eq_true, beq_iff_eq] at h
    rcases h with ⟨rfl, _⟩
    simp [charStartsWith]

/-- An audio-branch stream is never a video-only descriptor. -/
theorem isAudioStream_not_videoOnly (f : RapidFormat)
    (h : isAudioStream f = true) :
    (isVideoMime f && (f.hasAudio == some false)) = false := by
  unfold isAudioStream at h
  rw [Bool.or_eq_true] at h
  rcases h with h1 | h1
  · unfold isAudioMime at h1
    cases hm : f.mimeType with
    | none => rw [hm] at h1; simp at h1
    | some m =>
      rw [hm] at h1
      simp at h1
      have := not_video_of_audio_prefix m h1
      unfold isVideoMime
      rw [hm]
      simp [this]
  · rw [Bool.and_eq_true] at h1
    rcases h1 with ⟨h2, _⟩
    cases hA : f.hasAudio with
    | none => rw [hA] at h2; simp at h2
    | some v =>
      rw [hA] at h2
      simp only [Option.getD_some] at h2
      subst h2
      simp

theorem audioBest_of_audio_nonempty (allFormats : List RapidFormat)
    (h : allFormats.filter isAudioStream ≠ []) :
    ∃ f, audioBest allFormats = some f ∧
      f ∈ allFormats.filter isAudioStream ∧
      ∀ g ∈ allFormats.filter isAudioStream,
        g.bitrate.getD 0 ≤ f.bitrate.getD 0 := by
  rcases head_max_key (fun f => -(f.bitrate.getD 0)) bitrateDesc
      (fun a b => by simp only [bitrateDesc]; ring)
      (allFormats.filter isAudioStream) h with ⟨f, hhead, hmem, hmin⟩
  refine ⟨f, ?_, hmem, fun g hg => by have := hmin g hg; simp only at this; omega⟩
  simp only [audioBest]
  rw [hhead]
  rfl

theorem audioBest_of_audio_empty (allFormats : List RapidFormat)
    (h : allFormats.filter isAudioStream = [])
    (h2 : allFormats.filter
      (fun f => isVideoMime f && !(f.hasAudio == some false)) ≠ []) :
    ∃ f, audioBest allFormats = some f ∧
      f ∈ allFormats.filter
        (fun f => isVideoMime f && !(f.hasAudio == some false)) ∧
      ∀ g ∈ allFormats.filter
        (fun f => isVideoMime f && !(f.hasAudio == some false)),
        g.bitrate.getD 0 ≤ f.bitrate.getD 0 := by
  rcases head_max_key (fun f => -(f.bitrate.getD 0)) bitrateDesc
      (fun a b => by simp only [bitrateDesc]; ring)
      (allFormats.filter (fun f => isVideoMime f && !(f.hasAudio == some false)))
      h2 with ⟨f, hhead, hmem, hmin⟩
  refine ⟨f, ?_, hmem, fun g hg => by have := hmin g hg; simp only at this; omega⟩
  simp only [audioBest, h, jsSort, List.head?_nil, Option.none_orElse]
  exact hhead

theorem pickVideo_combined (videoFormats : List RapidFormat) (t : Option Int)
    (h : combinedPool videoFormats ≠ []) :
    ∃ p, pickVideo videoFormats t = (some p, false) ∧
      p ∈ combinedPool videoFormats := by
  rcases Option.isSome_iff_exists.mp (closestTo_isSome _ t h) with ⟨p, hp⟩
  refine ⟨p, ?_, closestTo_mem hp⟩
  unfold pickVideo
  rw [hp]

theorem pickVideo_videoOnly (videoFormats : List RapidFormat) (t : Option Int)
    (p : RapidFormat) (h : pickVideo videoFormats t = (some p, true)) :
    combinedPool videoFormats = [] ∧ p ∈ videoOnlyPool videoFormats := by
  unfold pickVideo at h
  cases hc : closestTo (combinedPool videoFormats) t with
  | some q => rw [hc] at h; simp at h
  | none =>
    rw [hc] at h
    refine ⟨(closestTo_none_iff _ t).mp hc, ?_⟩
    cases hv : closestTo (videoOnlyPool videoFormats) t with
    | some q =>
      rw [hv] at h
      simp only [Prod.mk.injEq, Option.some.injEq] at h
      exact h.1 ▸ closestTo_mem hv
    | none => rw [hv] at h; simp at h

end Ytstream

namespace Piped

theorem pickBestStream_mem {tq : String} {l : List PipedVideoStream}
    {s : PipedVideoStream} (h : pickBestStream tq l = some s) : s ∈ l := by
  simp only [pickBestStream] at h
  split at h
  · rename_i exact_ hf
    cases h
    exact List.mem_of_find?_eq_some hf
  · cases hh : (jsSort (fun a b => streamIdx a - streamIdx b) l).filter
        (fun s => decide (streamIdx s ≥ targetIdxOf tq)) |>.head? with
    | some a =>
      rw [hh] at h
      simp only [Option.some_orElse] at h
      cases h
      exact (mem_jsSort _ l s).mp (List.mem_of_mem_filter
        (head_mem_of_head?_eq_some hh))
    | none =>
      rw [hh] at h
      simp only [Option.none_orElse] at h
      exact (mem_jsSort _ l s).mp (head_mem_of_head?_eq_some h)

theorem pickBestStream_some_of_ne_nil (tq : String)
    (l : List PipedVideoStream) (h : l ≠ []) :
    ∃ s, pickBestStream tq l = some s ∧ s ∈ l := by
  cases hp : pickBestStream tq l with
  | some s => exact ⟨s, rfl, pickBestStream_mem hp⟩
  | none =>
    exfalso
    simp only [pickBestStream] at hp
    split at hp
    · simp at hp
    · cases hh : (jsSort (fun a b => streamIdx a - streamIdx b) l).filter
          (fun s => decide (streamIdx s ≥ targetIdxOf tq)) |>.head? with
      | some a => rw [hh] at hp; simp at hp
      | none =>
        rw [hh] at hp
        simp only [Option.none_orElse] at hp
        cases hs : jsSort (fun a b => streamIdx a - streamIdx b) l with
        | nil => exact jsSort_ne_nil _ l h hs
        | cons x xs => rw [hs] at hp; simp at hp

theorem selectVideo_nil (q : String) : selectVideo q [] = none := rfl

theorem selectAudio_nil : selectAudio [] = none := rfl

/-- When the combined pool is non-empty and the video-only override condition
is off (target at or below 720p on the ladder, or no video-only mp4 stream),
the Piped video selection returns a combined descriptor. -/
theorem selectVideo_combined (q : String) (vs : List PipedVideoStream)
    (hc : combinedStreamsOf vs ≠ [])
    (hcond : jsFindIndex (fun x => x == "720p") qualityOrder ≤
        targetIdxOf (targetQualityOf q) ∨ videoOnlyStreamsOf vs = []) :
    ∃ p, selectVideo q vs = some p ∧ p ∈ combinedStreamsOf vs := by
  rcases pickBestStream_some_of_ne_nil (targetQualityOf q)
      (combinedStreamsOf vs) hc with ⟨p, hp, hmem⟩
  refine ⟨p, ?_, hmem⟩
  have hbool : (decide (targetIdxOf (targetQualityOf q) <
      jsFindIndex (fun x => x == "720p") qualityOrder)
      && !(videoOnlyStreamsOf vs).isEmpty) = false := by
    rcases hcond with h | h
    · simp [decide_eq_false (not_lt.mpr h)]
    · simp [h]
  simp only [selectVideo]
  rw [hp]
  simp only [Option.isNone_some, Bool.false_or]
  rw [hbool]
  simp

/-- The Piped audio selection: a member of the list; the highest-bitrate
mp4/aac stream when one exists, else the highest-bitrate stream overall. -/
theorem selectAudio_spec (l : List PipedAudioStream) (h : l ≠ []) :
    ∃ s, selectAudio l = some s ∧ s ∈ l ∧
      ((∀ y ∈ l, isMp4Aac y = false) → ∀ y ∈ l, y.bitrate ≤ s.bitrate) ∧
      (∀ y ∈ l, isMp4Aac y = true →
        isMp4Aac s = true ∧ y.bitrate ≤ s.bitrate) := by
  have hcongr : jsSort audioBitrateDesc l =
      jsSort (fun a b => -a.bitrate - -b.bitrate) l :=
    jsSort_congr _ _ l (fun a _ b _ => by simp only [audioBitrateDesc]; ring)
  cases hf : (jsSort audioBitrateDesc l).find? isMp4Aac with
  | some s =>
    have hmemS : s ∈ l := (mem_jsSort _ l s).mp (List.mem_of_find?_eq_some hf)
    have hmp4 : isMp4Aac s = true := List.find?_some hf
    have hpw : (jsSort audioBitrateDesc l).Pairwise
        (fun a b => -a.bitrate ≤ -b.bitrate) := by
      rw [hcongr]
      exact pairwise_jsSort_key (fun a => -a.bitrate) l
    have hmax := find?_min_key (fun a => -a.bitrate) isMp4Aac
      (jsSort audioBitrateDesc l) hpw s hf
    refine ⟨s, ?_, hmemS, ?_, ?_⟩
    · simp only [selectAudio]
      rw [hf]
      rfl
    · intro hnone
      exact absurd (hnone s hmemS) (by simp [hmp4])
    · intro y hy hmy
      have := hmax y ((mem_jsSort _ l y).mpr hy) hmy
      exact ⟨hmp4, by simpa using this⟩
  | none =>
    have hnomp4 : ∀ y ∈ l, isMp4Aac y = false := by
      intro y hy
      have := List.find?_eq_none.mp hf y ((mem_jsSort _ l y).mpr hy)
      simpa using this
    rcases head_max_key (fun a => -a.bitrate) audioBitrateDesc
        (fun a b => by simp only [audioBitrateDesc]; ring) l h with
      ⟨x, hhead, hmem, hmin⟩
    refine ⟨x, ?_, hmem, ?_, ?_⟩
    · simp only [selectAudio]
      rw [hf]
      simp only [Option.none_orElse]
      exact hhead
    · intro _ y hy
      have := hmin y hy
      simpa using this
    · intro y hy hmy
      exact absurd hmy (by simp [hnomp4 y hy])

theorem fetchFromPiped_usable (d : PipedResponse)
    (rest : List ProviderOutcome) (h : dataUsable d = true) :
    fetchFromPiped (.ok d :: rest) = (some d, 1) := by
  simp [fetchFromPiped, h]

theorem fetchFromPiped_pos (o : ProviderOutcome)
    (rest : List ProviderOutcome) :
    1 ≤ (fetchFromPiped (o :: rest)).2 := by
  cases o with
  | failed => simp [fetchFromPiped]
  | ok d =>
    simp only [fetchFromPiped]
    split <;> simp

theorem fetchFromPiped_skip (o : ProviderOutcome)
    (rest : List ProviderOutcome) (h : isUsableOutcome o = false) :
    fetchFromPiped (o :: rest) =
      ((fetchFromPiped rest).1, (fetchFromPiped rest).2 + 1) := by
  cases o with
  | failed => rfl
  | ok d =>
    simp only [isUsableOutcome] at h
    simp [fetchFromPiped, h]

theorem fetchFromPiped_all_failed (outs : List ProviderOutcome)
    (h : ∀ o ∈ outs, isUsableOutcome o = false) :
    fetchFromPiped outs = (none, outs.length) := by
  induction outs with
  | nil => rfl
  | cons o rest ih =>
    rw [fetchFromPiped_skip o rest (h o (by simp))]
    rw [ih (fun x hx => h x (by simp [hx]))]
    simp

end Piped

end SelectionLemmas

section HandlerLemmas

theorem cors_subset_jsonResp (s : Nat) (b : RespBody) (br : Bool) (p : Nat) :
    corsHeaders ⊆ (jsonResp s b br p).headers :=
  List.subset_append_left _ _

theorem cors_subset_optionsResp : corsHeaders ⊆ optionsResp.headers :=
  List.Subset.refl _

theorem cors_subset_fallbackResp (b : ReqBody) (p : Nat) :
    corsHeaders ⊆ (V2.fallbackResp b p).headers :=
  List.subset_append_left _ _

theorem cors_yt (key : Option String) (up : Ytstream.Upstream)
    (req : Request) : corsHeaders ⊆ (Ytstream.handler key up req).headers := by
  simp only [Ytstream.handler]
  repeat' split
  all_goals first
    | exact cors_subset_optionsResp
    | exact cors_subset_jsonResp _ _ _ _

theorem cors_piped (outs : List Piped.ProviderOutcome) (req : Request) :
    corsHeaders ⊆ (Piped.handler outs req).headers := by
  simp only [Piped.handler]
  repeat' split
  all_goals first
    | exact cors_subset_optionsResp
    | exact cors_subset_jsonResp _ _ _ _

theorem cors_y2stage (env : V2.Env) (b : ReqBody) (isAudio : Bool) (p : Nat) :
    corsHeaders ⊆ (V2.y2Stage env b isAudio p).headers := by
  simp only [V2.y2Stage]
  repeat' split
  all_goals first
    | exact cors_subset_fallbackResp _ _
    | exact cors_subset_jsonResp _ _ _ _

theorem cors_v2 (env : V2.Env) (req : Request) :
    corsHeaders ⊆ (V2.handler env req).headers := by
  simp only [V2.handler]
  repeat' split
  all_goals first
    | exact cors_subset_optionsResp
    | exact cors_subset_jsonResp _ _ _ _
    | exact cors_y2stage _ _ _ _

theorem options_yt (key : Option String) (up : Ytstream.Upstream)
    (req : Request) (h : req.method = "OPTIONS") :
    Ytstream.handler key up req = optionsResp := by
  simp [Ytstream.handler, h]

theorem options_piped (outs : List Piped.ProviderOutcome) (req : Request)
    (h : req.method = "OPTIONS") : Piped.handler outs req = optionsResp := by
  simp [Piped.handler, h]

theorem options_v2 (env : V2.Env) (req : Request)
    (h : req.method = "OPTIONS") : V2.handler env req = optionsResp := by
  simp [V2.handler, h]

end HandlerLemmas

/-- C9: every response produced by any of the three resolver variants, on
every control path, includes the permissive cross-origin headers, and every
OPTIONS request short-circuits to the empty-body 200 response without
reading the request body and without contacting any provider. -/
theorem c9_cors_and_options :
    (∀ (key : Option String) (up : Ytstream.Upstream) (req : Request),
      corsHeaders ⊆ (Ytstream.handler key up req).headers)
    ∧ (∀ (outs : List Piped.ProviderOutcome) (req : Request),
      corsHeaders ⊆ (Piped.handler outs req).headers)
    ∧ (∀ (env : V2.Env) (req : Request),
      corsHeaders ⊆ (V2.handler env req).headers)
    ∧ (∀ (key : Option String) (up : Ytstream.Upstream) (req : Request),
      req.method = "OPTIONS" → Ytstream.handler key up req = optionsResp)
    ∧ (∀ (outs : List Piped.ProviderOutcome) (req : Request),
      req.method = "OPTIONS" → Piped.handler outs req = optionsResp)
    ∧ (∀ (env : V2.Env) (req : Request),
      req.method = "OPTIONS" → V2.handler env req = optionsResp)
    ∧ optionsResp = ⟨200, corsHeaders, RespBody.empty, false, 0⟩ :=
  ⟨cors_yt, cors_piped, cors_v2, options_yt, options_piped, options_v2, rfl⟩

/-- C9 witness: the OPTIONS short-circuit and header inclusion at a concrete
request and environment. -/
theorem c9_witness :
    (Request.mk "OPTIONS" none).method = "OPTIONS" ∧
    Ytstream.handler none .thrown (Request.mk "OPTIONS" none) = optionsResp ∧
    Piped.handler [] (Request.mk "OPTIONS" none) = optionsResp ∧
    V2.handler ⟨none, .thrown, .thrown, .thrown⟩ (Request.mk "OPTIONS" none)
      = optionsResp ∧
    corsHeaders ⊆ (Ytstream.handler none .thrown cxReq720).headers :=
  ⟨rfl,
   c9_cors_and_options.2.2.2.1 none .thrown (Request.mk "OPTIONS" none) rfl,
   c9_cors_and_options.2.2.2.2.1 [] (Request.mk "OPTIONS" none) rfl,
   c9_cors_and_options.2.2.2.2.2.1 ⟨none, .thrown, .thrown, .thrown⟩
     (Request.mk "OPTIONS" none) rfl,
   c9_cors_and_options.1 none .thrown cxReq720⟩

/-- C6: for every non-OPTIONS request whose parsed JSON body lacks a
`videoId` (absent or empty, i.e. falsy), every resolver variant returns
status exactly 400 with body `{"error":"videoId is required"}` and without
contacting any provider. -/
theorem c6_missing_videoid_400 :
    ∀ (req : Request) (b : ReqBody), req.method ≠ "OPTIONS" →
      req.body = some b → jsFalsy b.videoId = true →
      (∀ (key : Option String) (up : Ytstream.Upstream),
        Ytstream.handler key up req =
          jsonResp 400 (.err "videoId is required") true 0)
      ∧ (∀ outs : List Piped.ProviderOutcome,
        Piped.handler outs req =
          jsonResp 400 (.err "videoId is required") true 0)
      ∧ (∀ env : V2.Env,
        V2.handler env req =
          jsonResp 400 (.err "videoId is required") true 0) := by
  intro req b hm hb hf
  refine ⟨fun key up => ?_, fun outs => ?_, fun env => ?_⟩
  · simp [Ytstream.handler, hb, hf, beq_eq_false_iff_ne.mpr hm]
  · simp [Piped.handler, hb, hf, beq_eq_false_iff_ne.mpr hm]
  · simp [V2.handler, hb, hf, beq_eq_false_iff_ne.mpr hm]

/-- C6 witness: the 400 guard at a concrete request with an empty
`videoId`, against all three variants. -/
theorem c6_witness :
    ((Request.mk "POST" (some ⟨some "", some "720"⟩)).method ≠ "OPTIONS" ∧
      (Request.mk "POST" (some ⟨some "", some "720"⟩)).body =
        some ⟨some "", some "720"⟩ ∧
      jsFalsy (some "") = true) ∧
    Ytstream.handler none .thrown (Request.mk "POST" (some ⟨some "", some "720"⟩))
      = jsonResp 400 (.err "videoId is required") true 0 ∧
    Piped.handler [] (Request.mk "POST" (some ⟨some "", some "720"⟩))
      = jsonResp 400 (.err "videoId is required") true 0 ∧
    V2.handler ⟨none, .thrown, .thrown, .thrown⟩
        (Request.mk "POST" (some ⟨some "", some "720"⟩))
      = jsonResp 400 (.err "videoId is required") true 0 := by
  have h := c6_missing_videoid_400 (Request.mk "POST" (some ⟨some "", some "720"⟩))
    ⟨some "", some "720"⟩ (by decide) rfl (by decide)
  exact ⟨⟨by decide, rfl, by decide⟩, h.1 none .thrown, h.2.1 [],
    h.2.2 ⟨none, .thrown, .thrown, .thrown⟩⟩

/-- C5: the Piped providers are attempted sequentially in the fixed
4-instance priority order; the first usable payload short-circuits the
chain; when the first two instances fail the third is still contacted;
exhausting all instances contacts each exactly once and yields the single
terminal 502 error response. -/
theorem c5_provider_chain :
    Piped.PIPED_INSTANCES.length = 4
    ∧ (∀ (d : Piped.PipedResponse) (rest : List Piped.ProviderOutcome),
        Piped.dataUsable d = true →
        Piped.fetchFromPiped (.ok d :: rest) = (some d, 1))
    ∧ (∀ o1 o2 o3 o4 : Piped.ProviderOutcome,
        Piped.isUsableOutcome o1 = false → Piped.isUsableOutcome o2 = false →
        3 ≤ (Piped.fetchFromPiped [o1, o2, o3, o4]).2)
    ∧ (∀ outs : List Piped.ProviderOutcome,
        (∀ o ∈ outs, Piped.isUsableOutcome o = false) →
        Piped.fetchFromPiped outs = (none, outs.length))
    ∧ (∀ (outs : List Piped.ProviderOutcome) (req : Request) (b : ReqBody),
        req.method ≠ "OPTIONS" → req.body = some b →
        jsFalsy b.videoId = false →
        (∀ o ∈ outs, Piped.isUsableOutcome o = false) →
        Piped.handler outs req = jsonResp 502
          (.err "Could not retrieve video streams. The video may be unavailable.")
          true outs.length) := by
  refine ⟨rfl, Piped.fetchFromPiped_usable, ?_, Piped.fetchFromPiped_all_failed, ?_⟩
  · intro o1 o2 o3 o4 h1 h2
    rw [Piped.fetchFromPiped_skip o1 _ h1, Piped.fetchFromPiped_skip o2 _ h2]
    have := Piped.fetchFromPiped_pos o3 [o4]
    simp only []
    omega
  · intro outs req b hm hb hf hall
    have hfetch := Piped.fetchFromPiped_all_failed outs hall
    simp [Piped.handler, hb, hf, beq_eq_false_iff_ne.mpr hm, hfetch]

/-- C5 witness: two failing instances followed by a usable third, and full
exhaustion of four failing instances, at concrete outcomes. -/
theorem c5_witness :
    Piped.dataUsable ⟨some [], some []⟩ = true ∧
    Piped.isUsableOutcome .failed = false ∧
    Piped.fetchFromPiped [.ok ⟨some [], some []⟩] = (some ⟨some [], some []⟩, 1) ∧
    3 ≤ (Piped.fetchFromPiped [.failed, .failed, .failed, .failed]).2 ∧
    Piped.fetchFromPiped [.failed, .failed, .failed, .failed] =
      (none, ([Piped.ProviderOutcome.failed, .failed, .failed, .failed]).length) ∧
    Piped.handler [.failed, .failed, .failed, .failed] cxReq720 = jsonResp 502
      (.err "Could not retrieve video streams. The video may be unavailable.")
      true ([Piped.ProviderOutcome.failed, .failed, .failed, .failed]).length := by
  refine ⟨by decide, by decide, ?_, ?_, ?_, ?_⟩
  · exact c5_provider_chain.2.1 ⟨some [], some []⟩ [] (by decide)
  · exact c5_provider_chain.2.2.1 .failed .failed .failed .failed
      (by decide) (by decide)
  · exact c5_provider_chain.2.2.2.1 [.failed, .failed, .failed, .failed]
      (by intro o ho; simp at ho; subst ho; rfl)
  · exact c5_provider_chain.2.2.2.2 [.failed, .failed, .failed, .failed]
      cxReq720 ⟨some "abc", some "720"⟩ (by decide) rfl (by decide)
      (by intro o ho; simp at ho; subst ho; rfl)

/-- C7: when a provider responds but the resulting stream-descriptor list is
empty, both the ytstream and the Piped resolver return a 404 "not available"
JSON error — never a 200 response. -/
theorem c7_empty_streams_not_available :
    (∀ (req : Request) (b : ReqBody) (key : String),
      req.method ≠ "OPTIONS" → req.body = some b →
      jsFalsy b.videoId = false →
      Ytstream.handler (some key) (.ok [] []) req =
        jsonResp 404 (.err "No streams found for this video.") true 1)
    ∧ (∀ (outs : List Piped.ProviderOutcome) (req : Request) (b : ReqBody)
        (d : Piped.PipedResponse) (n : Nat),
      req.method ≠ "OPTIONS" → req.body = some b →
      jsFalsy b.videoId = false →
      Piped.fetchFromPiped outs = (some d, n) →
      d.audioStreams.getD [] = [] → d.videoStreams.getD [] = [] →
      (Piped.handler outs req).status = 404 ∧
      ∃ msg, (Piped.handler outs req).body = RespBody.err msg) := by
  constructor
  · intro req b key hm hb hf
    simp [Ytstream.handler, hb, hf, beq_eq_false_iff_ne.mpr hm]
  · intro outs req b d n hm hb hf hfetch hA hV
    by_cases hq : b.quality = some "audio"
    · have hred : Piped.handler outs req = jsonResp 404
          (.err "No audio stream found for this video.") true n := by
        simp [Piped.handler, hb, hf, beq_eq_false_iff_ne.mpr hm, hfetch, hq,
          hA, Piped.selectAudio_nil]
      rw [hred]
      exact ⟨rfl, _, rfl⟩
    · have hred : Piped.handler outs req = jsonResp 404
          (.err "No video stream found for the requested quality.") true n := by
        simp [Piped.handler, hb, hf, beq_eq_false_iff_ne.mpr hm, hfetch,
          beq_eq_false_iff_ne.mpr hq, hV, Piped.selectVideo_nil]
      rw [hred]
      exact ⟨rfl, _, rfl⟩

/-- C7 witness: a provider that responds with present but empty stream lists
yields the 404 error, at a concrete request. -/
theorem c7_witness :
    Ytstream.handler (some "k") (.ok [] []) cxReq720 =
      jsonResp 404 (.err "No streams found for this video.") true 1 ∧
    Piped.fetchFromPiped [Piped.ProviderOutcome.ok ⟨some [], some []⟩] =
      (some ⟨some [], some []⟩, 1) ∧
    (Piped.handler [Piped.ProviderOutcome.ok ⟨some [], some []⟩] cxReq720).status
      = 404 ∧
    ∃ msg, (Piped.handler [Piped.ProviderOutcome.ok ⟨some [], some []⟩]
      cxReq720).body = RespBody.err msg := by
  have h2 := c7_empty_streams_not_available.2
    [Piped.ProviderOutcome.ok ⟨some [], some []⟩] cxReq720
    ⟨some "abc", some "720"⟩ ⟨some [], some []⟩ 1
    (by decide) rfl (by decide) (by decide) (by decide) (by decide)
  exact ⟨c7_empty_streams_not_available.1 cxReq720 ⟨some "abc", some "720"⟩
    "k" (by decide) rfl (by decide), by decide, h2.1, h2.2⟩

/-- C8 counterexample: in the ytstream variant a successful resolution whose
chosen descriptor carries no audio track (here the only descriptor, with
`hasAudio: false`) produces a response with `videoOnly: true` but with no
`audioUrl` field at all, refuting the claim for this variant. -/
theorem c8_counterexample :
    Ytstream.handler (some "k") (.ok [cxFVO] []) cxReq720 =
      jsonResp 200
        (RespBody.video "u" (some "720p") (some "video/mp4") true none)
        true 1 ∧
    cxFVO.hasAudio = some false := by
  constructor
  · decide
  · rfl

/-- C8 amended: in the ytstream variant no video response ever carries an
`audioUrl` field; in the Piped variant a successful video response reports
the chosen descriptor's `videoOnly` flag and carries `audioUrl` exactly when
that flag is set and an audio stream exists, holding the highest-bitrate
audio stream's url. -/
theorem c8_audiourl_amended :
    (∀ (key : Option String) (up : Ytstream.Upstream) (req : Request)
        (u : String) (q m : Option String) (vo : Bool) (au : Option String),
      (Ytstream.handler key up req).body = RespBody.video u q m vo au →
      au = none)
    ∧ (∀ (outs : List Piped.ProviderOutcome) (req : Request) (b : ReqBody)
        (d : Piped.PipedResponse) (n : Nat) (p : Piped.PipedVideoStream),
      req.method ≠ "OPTIONS" → req.body = some b →
      jsFalsy b.videoId = false → b.quality ≠ some "audio" →
      Piped.fetchFromPiped outs = (some d, n) →
      Piped.selectVideo (b.quality.getD "undefined") (d.videoStreams.getD [])
        = some p →
      p.url.isEmpty = false →
      Piped.handler outs req = jsonResp 200
        (RespBody.video p.url p.quality p.mimeType p.videoOnly
          (if p.videoOnly then
            ((jsSort Piped.audioBitrateDesc (d.audioStreams.getD [])).head?.map
              (fun a => a.url))
           else none)) true n) := by
  constructor
  · intro key up req u q m vo au h
    simp only [Ytstream.handler] at h
    repeat' split at h
    all_goals simp_all [jsonResp, optionsResp]
  · intro outs req b d n p hm hb hf hq hfetch hsel hurl
    simp [Piped.handler, hb, hf, beq_eq_false_iff_ne.mpr hm, hfetch,
      beq_eq_false_iff_ne.mpr hq, hsel, hurl]

/-- C8 witness: the Piped success path at a concrete video-only pick with
one audio stream, and the ytstream no-audioUrl fact at a concrete response. -/
theorem c8_witness :
    Piped.handler
        [Piped.ProviderOutcome.ok ⟨some [cxAMp4], some [cxV1080]⟩]
        ⟨"POST", some ⟨some "abc", some "1080"⟩⟩
      = jsonResp 200
          (RespBody.video "u2" (some "1080p") (some "video/mp4") true
            (some "ub")) true 1 ∧
    (Ytstream.handler (some "k") (.ok [cxFVO] []) cxReq720).body =
      RespBody.video "u" (some "720p") (some "video/mp4") true none := by
  constructor
  · have h := c8_audiourl_amended.2
      [Piped.ProviderOutcome.ok ⟨some [cxAMp4], some [cxV1080]⟩]
      ⟨"POST", some ⟨some "abc", some "1080"⟩⟩
      ⟨some "abc", some "1080"⟩ ⟨some [cxAMp4], some [cxV1080]⟩ 1 cxV1080
      (by decide) rfl (by decide) (by decide) (by decide) (by decide)
      (by decide)
    rw [h]
    decide
  · decide

/-- C1 counterexample: in the Piped variant, with a combined 720p mp4 stream
present and a video-only 1080p mp4 stream available, a request for quality
"1080" selects the video-only descriptor even though the combined pool is
non-empty, refuting the claim as stated. -/
theorem c1_counterexample :
    Piped.selectVideo "1080" [cxC720, cxV1080] = some cxV1080 ∧
    cxV1080.videoOnly = true ∧
    Piped.combinedStreamsOf [cxC720, cxV1080] = [cxC720] := by decide

/-- C1 amended: in the ytstream variant a combined descriptor is always
chosen when the combined pool is non-empty, and a video-only pick occurs
only when that pool is empty; in the Piped variant the same preference holds
only when the target sits at or below 720p on the quality ladder or no
video-only mp4 stream exists — above 720p an available video-only stream
replaces the combined pick. -/
theorem c1_combined_preference_amended :
    (∀ (videoFormats : List Ytstream.RapidFormat) (t : Option Int),
      Ytstream.combinedPool videoFormats ≠ [] →
      ∃ p, Ytstream.pickVideo videoFormats t = (some p, false) ∧
        p ∈ Ytstream.combinedPool videoFormats)
    ∧ (∀ (videoFormats : List Ytstream.RapidFormat) (t : Option Int)
        (p : Ytstream.RapidFormat),
      Ytstream.pickVideo videoFormats t = (some p, true) →
      Ytstream.combinedPool videoFormats = [] ∧
        p ∈ Ytstream.videoOnlyPool videoFormats)
    ∧ (∀ (q : String) (vs : List Piped.PipedVideoStream),
      Piped.combinedStreamsOf vs ≠ [] →
      (jsFindIndex (fun x => x == "720p") Piped.qualityOrder ≤
          Piped.targetIdxOf (Piped.targetQualityOf q) ∨
        Piped.videoOnlyStreamsOf vs = []) →
      ∃ p, Piped.selectVideo q vs = some p ∧
        p ∈ Piped.combinedStreamsOf vs) :=
  ⟨Ytstream.pickVideo_combined, Ytstream.pickVideo_videoOnly,
    Piped.selectVideo_combined⟩

/-- C1 witness: the combined preference at concrete descriptor lists in both
variants. -/
theorem c1_witness :
    (Ytstream.combinedPool [cxFC] ≠ [] ∧
      ∃ p, Ytstream.pickVideo [cxFC] (some 480) = (some p, false) ∧
        p ∈ Ytstream.combinedPool [cxFC]) ∧
    (Piped.combinedStreamsOf [cxC720] ≠ [] ∧
      ∃ p, Piped.selectVideo "720" [cxC720] = some p ∧
        p ∈ Piped.combinedStreamsOf [cxC720]) :=
  ⟨⟨by decide, c1_combined_preference_amended.1 [cxFC] (some 480) (by decide)⟩,
   ⟨by decide, c1_combined_preference_amended.2.2 "720" [cxC720] (by decide)
     (Or.inl (by decide))⟩⟩

/-- C2 counterexample: in the Piped variant the eligible list holding a
720p and a 144p combined mp4 stream, asked for quality "480", yields the
144p stream although |144-480| = 336 exceeds |720-480| = 240, refuting the
minimal-absolute-difference claim. -/
theorem c2_counterexample :
    Piped.selectVideo "480" [cxS720, cxS144] = some cxS144 ∧
    cxS144.quality = some "144p" ∧ cxS720 ∈ [cxS720, cxS144] ∧
    cxS720.quality = some "720p" ∧
    ((720 : Int) - 480).natAbs < ((144 : Int) - 480).natAbs := by decide

/-- C2 amended: in the ytstream variant selection minimises
|declared height − target| over the eligible list and both concrete examples
hold; in the Piped variant a non-empty eligible list still always yields a
member (never an error) and both concrete examples hold, but selection
follows the at-or-below quality ladder rather than minimal absolute
difference. -/
theorem c2_closest_selection_amended :
    (∀ (fmts : List Ytstream.RapidFormat) (t : Int), fmts ≠ [] →
      (∀ f ∈ fmts, (Ytstream.rfHeight f).isSome = true) →
      ∃ p, Ytstream.closestTo fmts (some t) = some p ∧ p ∈ fmts ∧
        ∀ g ∈ fmts, ∀ hp hg : Int, Ytstream.rfHeight p = some hp →
          Ytstream.rfHeight g = some hg →
          (hp - t).natAbs ≤ (hg - t).natAbs)
    ∧ Ytstream.closestTo [cxE144, cxE360, cxE720] (some 480) = some cxE360
    ∧ Ytstream.closestTo [cxE144] (some 1080) = some cxE144
    ∧ (∀ (tq : String) (l : List Piped.PipedVideoStream), l ≠ [] →
      ∃ s, Piped.pickBestStream tq l = some s ∧ s ∈ l)
    ∧ Piped.pickBestStream "480p" [cxP144, cxP360, cxP720] = some cxP360
    ∧ Piped.pickBestStream "1080p" [cxP144] = some cxP144 :=
  ⟨Ytstream.closestTo_min, by decide, by decide,
    Piped.pickBestStream_some_of_ne_nil, by decide, by decide⟩

/-- C2 witness: the minimality statement instantiated at the concrete
heights 144/360/720 with target 480, and the Piped never-an-error fact at a
concrete singleton list. -/
theorem c2_witness :
    (([cxE144, cxE360, cxE720] : List Ytstream.RapidFormat) ≠ [] ∧
      (∀ f ∈ [cxE144, cxE360, cxE720], (Ytstream.rfHeight f).isSome = true)) ∧
    (∃ p, Ytstream.closestTo [cxE144, cxE360, cxE720] (some 480) = some p ∧
      p ∈ [cxE144, cxE360, cxE720] ∧
      ∀ g ∈ [cxE144, cxE360, cxE720], ∀ hp hg : Int,
        Ytstream.rfHeight p = some hp → Ytstream.rfHeight g = some hg →
        (hp - 480).natAbs ≤ (hg - 480).natAbs) ∧
    (∃ s, Piped.pickBestStream "1080p" [cxP144] = some s ∧ s ∈ [cxP144]) :=
  ⟨⟨by decide, by decide⟩,
   c2_closest_selection_amended.1 [cxE144, cxE360, cxE720] 480 (by decide)
     (by decide),
   c2_closest_selection_amended.2.2.2.1 "1080p" [cxP144] (by decide)⟩

/-- C3: with quality "audio" and at least one audio-only descriptor present,
selection never returns a video-only descriptor: the ytstream pick satisfies
the audio filter and is not a video-only format, and the Piped pick always
comes from the audio stream list. -/
theorem c3_audio_never_video_only :
    (∀ allFormats : List Ytstream.RapidFormat,
      allFormats.filter Ytstream.isAudioStream ≠ [] →
      ∃ f, Ytstream.audioBest allFormats = some f ∧
        Ytstream.isAudioStream f = true ∧
        (Ytstream.isVideoMime f && (f.hasAudio == some false)) = false)
    ∧ (∀ (l : List Piped.PipedAudioStream) (s : Piped.PipedAudioStream),
        Piped.selectAudio l = some s → s ∈ l)
    ∧ (∀ l : List Piped.PipedAudioStream, l ≠ [] →
        (Piped.selectAudio l).isSome = true) := by
  refine ⟨?_, ?_, ?_⟩
  · intro allFormats h
    rcases Ytstream.audioBest_of_audio_nonempty allFormats h with
      ⟨f, hbest, hmem, _⟩
    have hf : Ytstream.isAudioStream f = true := (List.mem_filter.mp hmem).2
    exact ⟨f, hbest, hf, Ytstream.isAudioStream_not_videoOnly f hf⟩
  · intro l s h
    simp only [Piped.selectAudio] at h
    cases hf : (jsSort Piped.audioBitrateDesc l).find? Piped.isMp4Aac with
    | some x =>
      rw [hf] at h
      simp only [Option.some_orElse] at h
      cases h
      exact (mem_jsSort _ l s).mp (List.mem_of_find?_eq_some hf)
    | none =>
      rw [hf] at h
      simp only [Option.none_orElse] at h
      exact (mem_jsSort _ l s).mp (head_mem_of_head?_eq_some h)
  · intro l h
    rcases Piped.selectAudio_spec l h with ⟨s, hs, _⟩
    simp [hs]

/-- C3 witness: the audio guarantee at concrete descriptor lists holding an
audio-only stream, in both variants. -/
theorem c3_witness :
    ([cxAfmt].filter Ytstream.isAudioStream ≠ [] ∧
      ∃ f, Ytstream.audioBest [cxAfmt] = some f ∧
        Ytstream.isAudioStream f = true ∧
        (Ytstream.isVideoMime f && (f.hasAudio == some false)) = false) ∧
    (Piped.selectAudio [cxAMp4] = some cxAMp4 → cxAMp4 ∈ [cxAMp4]) ∧
    (([cxAMp4] : List Piped.PipedAudioStream) ≠ [] ∧
      (Piped.selectAudio [cxAMp4]).isSome = true) :=
  ⟨⟨by decide, c3_audio_never_video_only.1 [cxAfmt] (by decide)⟩,
   fun h => c3_audio_never_video_only.2.1 [cxAMp4] cxAMp4 h,
   ⟨by decide, c3_audio_never_video_only.2.2 [cxAMp4] (by decide)⟩⟩

/-- C4 counterexample: in the Piped variant, with audio-only streams webm at
bitrate 160 and mp4 at bitrate 128, selection returns the mp4 stream rather
than the highest-bitrate one, refuting the claim as stated. -/
theorem c4_counterexample :
    Piped.selectAudio [cxAWebm, cxAMp4] = some cxAMp4 ∧
    cxAMp4.bitrate = 128 ∧ cxAWebm.bitrate = 160 ∧
    cxAWebm ∈ [cxAWebm, cxAMp4] ∧ (128 : Int) < 160 := by decide

/-- C4 amended: in the ytstream variant the claim holds — the highest
`bitrate || 0` audio-filtered descriptor is picked, with the combined pool
used only when no audio descriptor exists; in the Piped variant selection
instead prefers the highest-bitrate mp4/aac audio stream when one exists,
falling back to the highest-bitrate audio stream overall. -/
theorem c4_audio_bitrate_amended :
    (∀ allFormats : List Ytstream.RapidFormat,
      allFormats.filter Ytstream.isAudioStream ≠ [] →
      ∃ f, Ytstream.audioBest allFormats = some f ∧
        f ∈ allFormats.filter Ytstream.isAudioStream ∧
        ∀ g ∈ allFormats.filter Ytstream.isAudioStream,
          g.bitrate.getD 0 ≤ f.bitrate.getD 0)
    ∧ (∀ allFormats : List Ytstream.RapidFormat,
      allFormats.filter Ytstream.isAudioStream = [] →
      allFormats.filter
        (fun f => Ytstream.isVideoMime f && !(f.hasAudio == some false)) ≠ [] →
      ∃ f, Ytstream.audioBest allFormats = some f ∧
        f ∈ allFormats.filter
          (fun f => Ytstream.isVideoMime f && !(f.hasAudio == some false)) ∧
        ∀ g ∈ allFormats.filter
          (fun f => Ytstream.isVideoMime f && !(f.hasAudio == some false)),
          g.bitrate.getD 0 ≤ f.bitrate.getD 0)
    ∧ (∀ l : List Piped.PipedAudioStream, l ≠ [] →
      ∃ s, Piped.selectAudio l = some s ∧ s ∈ l ∧
        ((∀ y ∈ l, Piped.isMp4Aac y = false) → ∀ y ∈ l, y.bitrate ≤ s.bitrate) ∧
        (∀ y ∈ l, Piped.isMp4Aac y = true →
          Piped.isMp4Aac s = true ∧ y.bitrate ≤ s.bitrate)) :=
  ⟨Ytstream.audioBest_of_audio_nonempty, Ytstream.audioBest_of_audio_empty,
    Piped.selectAudio_spec⟩

/-- C4 witness: the bitrate guarantees at concrete audio descriptor lists. -/
theorem c4_witness :
    ([cxAfmt].filter Ytstream.isAudioStream ≠ [] ∧
      ∃ f, Ytstream.audioBest [cxAfmt] = some f ∧
        f ∈ [cxAfmt].filter Ytstream.isAudioStream ∧
        ∀ g ∈ [cxAfmt].filter Ytstream.isAudioStream,
          g.bitrate.getD 0 ≤ f.bitrate.getD 0) ∧
    (([cxAWebm, cxAMp4] : List Piped.PipedAudioStream) ≠ [] ∧
      ∃ s, Piped.selectAudio [cxAWebm, cxAMp4] = some s ∧
        s ∈ [cxAWebm, cxAMp4] ∧
        ((∀ y ∈ [cxAWebm, cxAMp4], Piped.isMp4Aac y = false) →
          ∀ y ∈ [cxAWebm, cxAMp4], y.bitrate ≤ s.bitrate) ∧
        (∀ y ∈ [cxAWebm, cxAMp4], Piped.isMp4Aac y = true →
          Piped.isMp4Aac s = true ∧ y.bitrate ≤ s.bitrate)) :=
  ⟨⟨by decide, c4_audio_bitrate_amended.1 [cxAfmt] (by decide)⟩,
   ⟨by decide, c4_audio_bitrate_amended.2.2 [cxAWebm, cxAMp4] (by decide)⟩⟩

/-- C10: in the ytstream variant a video descriptor with an absent
`hasAudio` field lands in the combined pool and never in the video-only
pool (the tests are `hasAudio !== false` and `hasAudio === false`), and at
a concrete input such a descriptor is chosen over an explicitly combined
one while the response reports `videoOnly: false`. -/
theorem c10_hasaudio_undefined_combined :
    (∀ (videoFormats : List Ytstream.RapidFormat) (f : Ytstream.RapidFormat),
      f ∈ videoFormats → f.hasAudio = none →
      f ∈ Ytstream.combinedPool videoFormats ∧
        f ∉ Ytstream.videoOnlyPool videoFormats)
    ∧ Ytstream.pickVideo [cxFU, cxFC] (some 720) = (some cxFU, false)
    ∧ cxFU.hasAudio = none ∧ cxFC.hasAudio = some true
    ∧ Ytstream.handler (some "k") (.ok [cxFU, cxFC] []) cxReq720
      = jsonResp 200
          (RespBody.video "u1" (some "720p") (some "video/mp4") false none)
          true 1 := by
  refine ⟨?_, by decide, rfl, rfl, by decide⟩
  intro videoFormats f hf hA
  constructor
  · exact List.mem_filter.mpr ⟨hf, by simp [Ytstream.combinedPool, hA]⟩
  · intro hmem
    have h2 := (List.mem_filter.mp hmem).2
    simp [hA] at h2

/-- C10 witness: the pool classification applied to the concrete descriptor
whose `hasAudio` field is absent. -/
theorem c10_witness :
    (cxFU ∈ [cxFU, cxFC] ∧ cxFU.hasAudio = none) ∧
    (cxFU ∈ Ytstream.combinedPool [cxFU, cxFC] ∧
      cxFU ∉ Ytstream.videoOnlyPool [cxFU, cxFC]) :=
  ⟨⟨by decide, rfl⟩,
   c10_hasaudio_undefined_combined.1 [cxFU, cxFC] cxFU (by decide) rfl⟩

end YtDl
